import Mathlib

/-!
Verification of the two-pass EXIF geolocation engine in
src/extract_exif.py, as a shallow embedding.

Modelling conventions:
* Python floats are modelled as exact rationals (ℚ); `round(x, 6)` is
  `round6`, rounding to the nearest multiple of 10⁻⁶.
* Epoch-millisecond timestamps are ℤ; `datetime.fromtimestamp(ms/1000).date()`
  is modelled by `toDay`, the floor division of the millisecond count by the
  number of milliseconds in a day (the time zone is fixed).
* The insertion-ordered `defaultdict(list)` mapping days to coordinate lists
  is an association list in insertion order (`DayIndex`).
* File discovery, EXIF decoding, date parsing and HEIC conversion perform
  I/O; their outcomes enter the embedding as fields of `MetaRecord`
  (one record per discovered file, in the sorted discovery order that
  `scan_images` iterates over).
* Python exceptions raised and caught inside `get_gps_info` are modelled
  with `Except PyErr`.
-/

/-- Latitude/longitude pair, exact rationals. -/
abbrev Coord := ℚ × ℚ

/-- Python `round(x, 6)` on the model: round to 6 decimal places. -/
def round6 (q : ℚ) : ℚ := ((round (q * 1000000) : ℤ) : ℚ) / 1000000

/-- A value stored in an EXIF DMS sequence, as seen by Python `float(_)`:
a numeric value; a rational with zero denominator (conversion raises
`ZeroDivisionError`); a non-numeric non-string object such as `None` or a
tuple (`float()` raises `TypeError`); or a non-numeric string
(`float()` raises `ValueError`). -/
inductive PyNum where
  | num (q : ℚ)
  | zeroDen
  | nonNumeric
  | nonNumericStr
deriving DecidableEq

/-- The Python exceptions relevant to `get_gps_info`. -/
inductive PyErr where
  | keyError
  | typeError
  | zeroDivisionError
  | indexError
  | valueError
deriving DecidableEq

/-- Python `float(v)` on a DMS component: `TypeError` for a non-numeric
non-string object, `ValueError` for a non-numeric string. -/
def pyFloat : PyNum → Except PyErr ℚ
  | PyNum.num q => Except.ok q
  | PyNum.zeroDen => Except.error PyErr.zeroDivisionError
  | PyNum.nonNumeric => Except.error PyErr.typeError
  | PyNum.nonNumericStr => Except.error PyErr.valueError

/-- Python `dms[i]` on a sequence: raises `IndexError` past the end. -/
def seqItem (l : List PyNum) (i : ℕ) : Except PyErr PyNum :=
  match l[i]? with
  | some v => Except.ok v
  | none => Except.error PyErr.indexError

/-- Python `d[k]` on a dict: raises `KeyError` when the key is missing. -/
def dictEntry {α : Type} (o : Option α) : Except PyErr α :=
  match o with
  | some v => Except.ok v
  | none => Except.error PyErr.keyError

/-- `dms_to_decimal(dms, ref)` (src/extract_exif.py lines 51-59):
`float` each of the three components, combine as
degrees + minutes/60 + seconds/3600, negate when the reference is S or W,
round to 6 decimal places. -/
def dms_to_decimal (dms : List PyNum) (ref : String) : Except PyErr ℚ :=
  match seqItem dms 0 with
  | Except.error e => Except.error e
  | Except.ok v0 =>
    match pyFloat v0 with
    | Except.error e => Except.error e
    | Except.ok degrees =>
      match seqItem dms 1 with
      | Except.error e => Except.error e
      | Except.ok v1 =>
        match pyFloat v1 with
        | Except.error e => Except.error e
        | Except.ok minutes =>
          match seqItem dms 2 with
          | Except.error e => Except.error e
          | Except.ok v2 =>
            match pyFloat v2 with
            | Except.error e => Except.error e
            | Except.ok seconds =>
              let decimal := degrees + minutes / 60 + seconds / 3600
              Except.ok (round6 (if ref = "S" ∨ ref = "W" then -decimal else decimal))

/-- The decoded `GPSInfo` dictionary: the four entries that
`get_gps_info` reads, each possibly missing. -/
structure GpsRaw where
  latitude : Option (List PyNum)
  latitudeRef : Option String
  longitude : Option (List PyNum)
  longitudeRef : Option String

/-- The body of the `try` block in `get_gps_info`
(src/extract_exif.py lines 82-85): the four dict lookups are evaluated
left to right, then each `dms_to_decimal` call runs; the first exception
aborts the block. -/
def gpsBody (g : GpsRaw) : Except PyErr (ℚ × ℚ) :=
  match dictEntry g.latitude with
  | Except.error e => Except.error e
  | Except.ok dmsLat =>
    match dictEntry g.latitudeRef with
    | Except.error e => Except.error e
    | Except.ok refLat =>
      match dms_to_decimal dmsLat refLat with
      | Except.error e => Except.error e
      | Except.ok lat =>
        match dictEntry g.longitude with
        | Except.error e => Except.error e
        | Except.ok dmsLng =>
          match dictEntry g.longitudeRef with
          | Except.error e => Except.error e
          | Except.ok refLng =>
            match dms_to_decimal dmsLng refLng with
            | Except.error e => Except.error e
            | Except.ok lng => Except.ok (lat, lng)

/-- `get_gps_info(exif)` (src/extract_exif.py lines 74-87): `none` input
models a missing or empty `GPSInfo` tag (`if not gps_raw`).  The `except`
clause catches exactly `KeyError`, `TypeError` and `ZeroDivisionError`,
turning them into "no coordinate"; any other exception — `IndexError`
from a short DMS sequence, `ValueError` from `float()` on a non-numeric
string — propagates to the caller. -/
def get_gps_info : Option GpsRaw → Except PyErr (Option (ℚ × ℚ))
  | none => Except.ok none
  | some g =>
    match gpsBody g with
    | Except.ok p => Except.ok (some p)
    | Except.error PyErr.keyError => Except.ok none
    | Except.error PyErr.typeError => Except.ok none
    | Except.error PyErr.zeroDivisionError => Except.ok none
    | Except.error PyErr.indexError => Except.error PyErr.indexError
    | Except.error PyErr.valueError => Except.error PyErr.valueError

/-- Milliseconds in a calendar day. -/
def msPerDay : ℤ := 86400000

/-- `datetime.fromtimestamp(ms / 1000).date()` as a day number:
floor division of the epoch milliseconds by the milliseconds per day. -/
def toDay (ms : ℤ) : ℤ := Int.fdiv ms msPerDay

/-- The day → coordinates mapping `day_locations = defaultdict(list)`:
an association list in key insertion order. -/
abbrev DayIndex := List (ℤ × List Coord)

/-- `day_locations[photo_date].append((lat, lng))`: append to the existing
day entry, or create the day at the end of the iteration order. -/
def insertDay : DayIndex → ℤ → Coord → DayIndex
  | [], d, c => [(d, [c])]
  | (d0, cs) :: rest, d, c =>
      if d0 = d then (d0, cs ++ [c]) :: rest
      else (d0, cs) :: insertDay rest d c

/-- `day_locations[day]` for a day that is iterated from the mapping
(the defaultdict default is never exercised by `infer_location`). -/
def lookupDay : DayIndex → ℤ → List Coord
  | [], _ => []
  | (d0, cs) :: rest, d => if d0 = d then cs else lookupDay rest d

/-- One iteration of the `for day in day_locations` loop in
`infer_location` (src/extract_exif.py lines 128-132): keep the running
best, replacing it only on a strictly smaller delta. -/
def bestStep (target : ℤ) (acc : Option (ℤ × ℤ)) (day : ℤ) : Option (ℤ × ℤ) :=
  match acc with
  | none => some (day, |day - target|)
  | some (bd, bdelta) =>
      if |day - target| < bdelta then some (day, |day - target|)
      else some (bd, bdelta)

/-- The whole `for day in day_locations` loop: fold `bestStep` over the
days in insertion order. -/
def bestDay (target : ℤ) (idx : DayIndex) : Option (ℤ × ℤ) :=
  idx.foldl (fun acc p => bestStep target acc p.1) none

/-- The per-day average coordinate that `infer_location` computes inline
(src/extract_exif.py lines 138-140): mean latitude and mean longitude,
each rounded to 6 decimal places. -/
def dayAverage (coords : List Coord) : Coord :=
  (round6 ((coords.map Prod.fst).sum / (coords.length : ℚ)),
   round6 ((coords.map Prod.snd).sum / (coords.length : ℚ)))

/-- `infer_location(timestamp_ms, day_locations)`
(src/extract_exif.py lines 119-141): empty index → no result; otherwise
scan for the nearest day and, if its delta is within 3 days, return that
day's average coordinate together with the delta. -/
def infer_location (timestamp_ms : ℤ) (day_locations : DayIndex) :
    Option (Coord × ℤ) :=
  if day_locations.isEmpty then none
  else
    let photo_date := toDay timestamp_ms
    match bestDay photo_date day_locations with
    | none => none
    | some (best_day, best_delta) =>
      if 3 < best_delta then none
      else
        let coords := lookupDay day_locations best_day
        some ((round6 ((coords.map Prod.fst).sum / (coords.length : ℚ)),
               round6 ((coords.map Prod.snd).sum / (coords.length : ℚ))),
              best_delta)

/-- One discovered image file, with the outcomes of the external steps
(EXIF decode, GPS extraction, date parsing, HEIC conversion) recorded:
`gps` is the result of `get_gps_info`, `timestamp` of `get_date_taken`,
and `convertResult` the serve path produced by `convert_heic_to_jpeg`
(`none` on conversion failure). -/
structure MetaRecord where
  filename : String
  path : String
  isHeic : Bool
  convertResult : Option String
  gps : Option Coord
  timestamp : Option ℤ

/-- An output entry of `scan_images`: the dict
with filename, path, timestamp, lat, lng and the approximate flag. -/
structure PhotoRecord where
  filename : String
  path : String
  timestamp : ℤ
  lat : ℚ
  lng : ℚ
  approximate : Bool
deriving DecidableEq

/-- An entry of the `no_gps` pool: the dict before lat/lng are known. -/
structure PendingRec where
  filename : String
  path : String
  timestamp : ℤ
deriving DecidableEq

/-- `HEIC_SUPPORT`: pillow-heif registered successfully.  Modelled as
available, so HEIC records reach the conversion step. -/
def HEIC_SUPPORT : Bool := true

/-- The mutable state of pass 1: the `geotagged` output list, the
`no_gps` pending pool, and the `day_locations` index. -/
structure Pass1State where
  geotagged : List PhotoRecord
  no_gps : List PendingRec
  day_locations : DayIndex

/-- One iteration of the pass-1 loop (src/extract_exif.py lines 165-206):
skip HEIC without support, skip records without a parsed date, skip HEIC
records whose conversion failed; then either emit an exact PhotoRecord
(and index its coordinate by day) or queue the record as pending. -/
def pass1Step (st : Pass1State) (r : MetaRecord) : Pass1State :=
  if r.isHeic && !HEIC_SUPPORT then st
  else
    match r.timestamp with
    | none => st
    | some ts =>
      match (if r.isHeic then r.convertResult else some r.path) with
      | none => st
      | some serve =>
        match r.gps with
        | some c =>
            { st with
              geotagged := st.geotagged ++
                [⟨r.filename, serve, ts, c.1, c.2, false⟩],
              day_locations := insertDay st.day_locations (toDay ts) c }
        | none =>
            { st with no_gps := st.no_gps ++ [⟨r.filename, serve, ts⟩] }

/-- Pass 1 over the whole discovered-file sequence. -/
def pass1 (input : List MetaRecord) : Pass1State :=
  input.foldl pass1Step ⟨[], [], []⟩

/-- The mutable state of pass 2: `geotagged` keeps growing, the index is
only read, and the two counters accumulate. -/
structure Pass2State where
  geotagged : List PhotoRecord
  day_locations : DayIndex
  inferred_count : ℕ
  still_missing : ℕ

/-- One iteration of the pass-2 loop (src/extract_exif.py lines 215-229):
try to infer a location for the pending record; on success append an
approximate PhotoRecord and bump `inferred_count`, otherwise bump
`still_missing`. -/
def pass2Step (st : Pass2State) (p : PendingRec) : Pass2State :=
  match infer_location p.timestamp st.day_locations with
  | some (c, _) =>
      { st with
        geotagged := st.geotagged ++
          [⟨p.filename, p.path, p.timestamp, c.1, c.2, true⟩],
        inferred_count := st.inferred_count + 1 }
  | none => { st with still_missing := st.still_missing + 1 }

/-- What `scan_images` returns and reports: the photo list, the final
index, and the three Summary numbers exactly as printed
(src/extract_exif.py lines 231-236): `exactCount` is
`len(geotagged) - inferred_count`. -/
structure ScanResult where
  photos : List PhotoRecord
  day_locations : DayIndex
  exactCount : ℕ
  inferredCount : ℕ
  stillMissing : ℕ

/-- `scan_images()` (src/extract_exif.py lines 144-236) on an
already-discovered, already-decoded record sequence: pass 1, then pass 2
over the pending pool against the frozen index. -/
def scan_images (input : List MetaRecord) : ScanResult :=
  let s1 := pass1 input
  let s2 := s1.no_gps.foldl pass2Step ⟨s1.geotagged, s1.day_locations, 0, 0⟩
  ⟨s2.geotagged, s2.day_locations,
   s2.geotagged.length - s2.inferred_count, s2.inferred_count,
   s2.still_missing⟩

/-- Specification-side view of pass 1: the exact PhotoRecord a single
input record contributes, when it does. -/
def exactRecord (r : MetaRecord) : Option PhotoRecord :=
  if r.isHeic && !HEIC_SUPPORT then none
  else
    match r.timestamp with
    | none => none
    | some ts =>
      match (if r.isHeic then r.convertResult else some r.path) with
      | none => none
      | some serve =>
        match r.gps with
        | some c => some ⟨r.filename, serve, ts, c.1, c.2, false⟩
        | none => none

/-- Specification-side view of pass 1: the pending entry a single input
record contributes, when it does. -/
def pendRecord (r : MetaRecord) : Option PendingRec :=
  if r.isHeic && !HEIC_SUPPORT then none
  else
    match r.timestamp with
    | none => none
    | some ts =>
      match (if r.isHeic then r.convertResult else some r.path) with
      | none => none
      | some serve =>
        match r.gps with
        | some _ => none
        | none => some ⟨r.filename, serve, ts⟩

/-- Specification-side view of pass 1: the (day, coordinate) pair a
single input record inserts into the index, when it does. -/
def exactIns (r : MetaRecord) : Option (ℤ × Coord) :=
  if r.isHeic && !HEIC_SUPPORT then none
  else
    match r.timestamp with
    | none => none
    | some ts =>
      match (if r.isHeic then r.convertResult else some r.path) with
      | none => none
      | some _ =>
        match r.gps with
        | some c => some (toDay ts, c)
        | none => none

/-- The index update contributed by one input record. -/
def buildStep (idx : DayIndex) (r : MetaRecord) : DayIndex :=
  match exactIns r with
  | some dc => insertDay idx dc.1 dc.2
  | none => idx

/-- Specification-side view of pass 2: the approximate PhotoRecord a
single pending record contributes, when inference succeeds. -/
def inferRec (idx : DayIndex) (p : PendingRec) : Option PhotoRecord :=
  match infer_location p.timestamp idx with
  | some (c, _) => some ⟨p.filename, p.path, p.timestamp, c.1, c.2, true⟩
  | none => none

/-- Correctness notion for the nearest-day loop: the result carries the
delta of its day, and the day list splits into earlier days, all at
strictly larger delta (so the winner is the first inserted among the
minimal ones), and later days, all at larger-or-equal delta. -/
def IsBest (target : ℤ) (days : List ℤ) : Option (ℤ × ℤ) → Prop
  | none => days = []
  | some (d, delta) =>
      delta = |d - target| ∧
      ∃ pre post, days = pre ++ d :: post ∧
        (∀ x ∈ pre, delta < |x - target|) ∧
        (∀ x ∈ post, delta ≤ |x - target|)

/-! ## Nearest-day loop: characterization -/

theorem isBest_step (target : ℤ) (days : List ℤ) (acc : Option (ℤ × ℤ)) (x : ℤ)
    (h : IsBest target days acc) :
    IsBest target (days ++ [x]) (bestStep target acc x) := by
  cases acc with
  | none =>
      have hd : days = [] := h
      subst hd
      exact ⟨rfl, [], [], rfl, by simp, by simp⟩
  | some bp =>
      obtain ⟨bd, bdelta⟩ := bp
      obtain ⟨hdelta, pre, post, hdec, hpre, hpost⟩ := h
      by_cases hlt : |x - target| < bdelta
      · simp only [bestStep, if_pos hlt]
        refine ⟨rfl, days, [], by simp, ?_, by simp⟩
        intro y hy
        rw [hdec] at hy
        rcases List.mem_append.1 hy with hy1 | hy2
        · exact lt_trans hlt (hpre y hy1)
        · rcases List.mem_cons.1 hy2 with rfl | hy3
          · exact hdelta ▸ hlt
          · exact lt_of_lt_of_le hlt (hpost y hy3)
      · simp only [bestStep, if_neg hlt]
        refine ⟨hdelta, pre, post ++ [x], by rw [hdec]; simp, hpre, ?_⟩
        intro y hy
        rcases List.mem_append.1 hy with hy1 | hy2
        · exact hpost y hy1
        · rcases List.mem_singleton.1 hy2 with rfl
          exact le_of_not_lt hlt

theorem foldl_bestStep_isBest (target : ℤ) (days : List ℤ) :
    IsBest target days (days.foldl (bestStep target) none) := by
  induction days using List.reverseRecOn with
  | nil => exact rfl
  | append_singleton l x ih =>
      rw [List.foldl_append]
      exact isBest_step target l _ x ih

theorem bestDay_isBest (target : ℤ) (idx : DayIndex) :
    IsBest target (idx.map Prod.fst) (bestDay target idx) := by
  have : bestDay target idx = (idx.map Prod.fst).foldl (bestStep target) none := by
    rw [List.foldl_map]
    rfl
  rw [this]
  exact foldl_bestStep_isBest target _

theorem bestDay_spec (target : ℤ) (idx : DayIndex) (h : idx ≠ []) :
    ∃ d delta, bestDay target idx = some (d, delta) ∧ delta = |d - target| ∧
      (∀ x ∈ idx.map Prod.fst, delta ≤ |x - target|) ∧
      ∃ pre post, idx.map Prod.fst = pre ++ d :: post ∧
        (∀ x ∈ pre, delta < |x - target|) ∧
        (∀ x ∈ post, delta ≤ |x - target|) := by
  have hb := bestDay_isBest target idx
  cases hbd : bestDay target idx with
  | none =>
      rw [hbd] at hb
      exact absurd (List.map_eq_nil_iff.1 hb) h
  | some p =>
      obtain ⟨d, delta⟩ := p
      rw [hbd] at hb
      obtain ⟨hdelta, pre, post, hdec, hpre, hpost⟩ := hb
      refine ⟨d, delta, rfl, hdelta, ?_, pre, post, hdec, hpre, hpost⟩
      intro x hx
      rw [hdec] at hx
      rcases List.mem_append.1 hx with hx1 | hx2
      · exact le_of_lt (hpre x hx1)
      · rcases List.mem_cons.1 hx2 with rfl | hx3
        · exact le_of_eq (hdelta ▸ rfl)
        · exact hpost x hx3

/-! ## infer_location: behavior lemmas -/

theorem infer_location_none_of_far (ts : ℤ) (idx : DayIndex)
    (h : ∀ q ∈ idx, 3 < |q.1 - toDay ts|) :
    infer_location ts idx = none := by
  cases idx with
  | nil => rfl
  | cons a l =>
      obtain ⟨d, delta, hbd, hdelta, hmin, pre, post, hdec, hpre, hpost⟩ :=
        bestDay_spec (toDay ts) (a :: l) (by simp)
      have hdm : d ∈ (a :: l).map Prod.fst := by
        rw [hdec]
        exact List.mem_append.2 (Or.inr (List.mem_cons_self d post))
      obtain ⟨q, hq, hq1⟩ := List.mem_map.1 hdm
      have hfar : 3 < delta := by
        rw [hdelta, ← hq1]
        exact h q hq
      simp only [infer_location, List.isEmpty_cons, hbd, if_pos hfar]
      rfl

theorem infer_location_some_of_near (ts : ℤ) (idx : DayIndex) (q0 : ℤ × List Coord)
    (hq0 : q0 ∈ idx) (hnear : |q0.1 - toDay ts| ≤ 3) :
    ∃ d delta, bestDay (toDay ts) idx = some (d, delta) ∧
      delta = |d - toDay ts| ∧ delta ≤ 3 ∧
      (∀ q ∈ idx, delta ≤ |q.1 - toDay ts|) ∧
      infer_location ts idx = some (dayAverage (lookupDay idx d), delta) := by
  have hne : idx ≠ [] := by
    intro hemp
    rw [hemp] at hq0
    exact absurd hq0 (List.not_mem_nil q0)
  obtain ⟨d, delta, hbd, hdelta, hmin, _⟩ := bestDay_spec (toDay ts) idx hne
  have hd3 : delta ≤ 3 :=
    le_trans (hmin q0.1 (List.mem_map_of_mem Prod.fst hq0)) hnear
  refine ⟨d, delta, hbd, hdelta, hd3, ?_, ?_⟩
  · intro q hq
    exact hmin q.1 (List.mem_map_of_mem Prod.fst hq)
  · have hemp : idx.isEmpty = false := by
      cases idx with
      | nil => exact absurd rfl hne
      | cons a l => rfl
    simp only [infer_location, hemp, Bool.false_eq_true, if_false, hbd,
      if_neg (not_lt.2 hd3)]
    rfl

/-- C2: for every non-empty DayIndex and every target day, the nearest-day
loop selects the indexed day with the smallest absolute calendar-day delta
to the target, and when several indexed days tie at that minimal delta the
day that was first inserted into the index wins: every day earlier in
insertion order has a strictly larger delta, every later day a
larger-or-equal one, independent of calendar ordering. -/
theorem spec_C2 (target : ℤ) (idx : DayIndex) (h : idx ≠ []) :
    ∃ d delta, bestDay target idx = some (d, delta) ∧ delta = |d - target| ∧
      (∀ x ∈ idx.map Prod.fst, delta ≤ |x - target|) ∧
      ∃ pre post, idx.map Prod.fst = pre ++ d :: post ∧
        (∀ x ∈ pre, delta < |x - target|) ∧
        (∀ x ∈ post, delta ≤ |x - target|) :=
  bestDay_spec target idx h

/-- Witness for C2 at a concrete tie: target day 7, index holding day 10
(inserted first) and day 4 (inserted later), both at delta 3; the loop
returns day 10, the first inserted, although day 4 is calendar-earlier. -/
theorem spec_C2_witness :
    (([(10, [((1 : ℚ), (1 : ℚ))]), (4, [(1, 1)])] : DayIndex) ≠ []) ∧
    bestDay 7 [(10, [((1 : ℚ), (1 : ℚ))]), (4, [(1, 1)])] = some (10, 3) ∧
    (∃ d delta,
      bestDay 7 [(10, [((1 : ℚ), (1 : ℚ))]), (4, [(1, 1)])] = some (d, delta) ∧
      delta = |d - 7| ∧
      (∀ x ∈ ([(10, [((1 : ℚ), (1 : ℚ))]), (4, [(1, 1)])] : DayIndex).map Prod.fst,
        delta ≤ |x - 7|) ∧
      ∃ pre post,
        ([(10, [((1 : ℚ), (1 : ℚ))]), (4, [(1, 1)])] : DayIndex).map Prod.fst =
          pre ++ d :: post ∧
        (∀ x ∈ pre, delta < |x - 7|) ∧
        (∀ x ∈ post, delta ≤ |x - 7|)) :=
  ⟨by simp, by decide, spec_C2 7 [(10, [((1 : ℚ), (1 : ℚ))]), (4, [(1, 1)])] (by simp)⟩

/-- C1: in pass 2, a pending record whose day is within 3 calendar days of
some indexed day (minimal delta ≤ 3) yields an approximate PhotoRecord
carrying the nearest day's average coordinate, and bumps the inferred
counter; with an empty index, or every indexed day more than 3 days away, no
record is emitted and the unresolved counter is bumped. -/
theorem spec_C1 (st : Pass2State) (p : PendingRec) :
    ((st.day_locations = [] ∨
        ∀ q ∈ st.day_locations, 3 < |q.1 - toDay p.timestamp|) →
      pass2Step st p =
        ⟨st.geotagged, st.day_locations, st.inferred_count,
         st.still_missing + 1⟩) ∧
    (∀ q, q ∈ st.day_locations → |q.1 - toDay p.timestamp| ≤ 3 →
      ∃ d delta,
        bestDay (toDay p.timestamp) st.day_locations = some (d, delta) ∧
        (∀ q2 ∈ st.day_locations, delta ≤ |q2.1 - toDay p.timestamp|) ∧
        delta ≤ 3 ∧
        pass2Step st p =
          ⟨st.geotagged ++
             [⟨p.filename, p.path, p.timestamp,
               (dayAverage (lookupDay st.day_locations d)).1,
               (dayAverage (lookupDay st.day_locations d)).2, true⟩],
           st.day_locations, st.inferred_count + 1, st.still_missing⟩) := by
  constructor
  · intro h
    have hnone : infer_location p.timestamp st.day_locations = none := by
      rcases h with h1 | h1
      · rw [h1]
        rfl
      · exact infer_location_none_of_far _ _ h1
    simp only [pass2Step, hnone]
  · intro q hq hd
    obtain ⟨d, delta, hbd, _, hd3, hmin, heq⟩ :=
      infer_location_some_of_near p.timestamp st.day_locations q hq hd
    refine ⟨d, delta, hbd, hmin, hd3, ?_⟩
    simp only [pass2Step, heq]

/-- Witness for C1: one indexed day 0 with coordinate (10, 20); a pending
record exactly 3 days away is inferred (inferred counter 1), one 4 days
away is unresolved (unresolved counter 1). -/
theorem spec_C1_witness :
    (∃ d delta,
       bestDay (toDay 259200000) [((0 : ℤ), [((10 : ℚ), (20 : ℚ))])] =
         some (d, delta) ∧
       (∀ q2 ∈ ([((0 : ℤ), [((10 : ℚ), (20 : ℚ))])] : DayIndex),
         delta ≤ |q2.1 - toDay 259200000|) ∧
       delta ≤ 3 ∧
       pass2Step ⟨[], [((0 : ℤ), [((10 : ℚ), (20 : ℚ))])], 0, 0⟩
           ⟨"b.jpg", "images/b.jpg", 259200000⟩ =
         ⟨[⟨"b.jpg", "images/b.jpg", 259200000,
            (dayAverage (lookupDay [((0 : ℤ), [((10 : ℚ), (20 : ℚ))])] d)).1,
            (dayAverage (lookupDay [((0 : ℤ), [((10 : ℚ), (20 : ℚ))])] d)).2,
            true⟩],
          [((0 : ℤ), [((10 : ℚ), (20 : ℚ))])], 1, 0⟩) ∧
    pass2Step ⟨[], [((0 : ℤ), [((10 : ℚ), (20 : ℚ))])], 0, 0⟩
        ⟨"c.jpg", "images/c.jpg", 345600000⟩ =
      ⟨[], [((0 : ℤ), [((10 : ℚ), (20 : ℚ))])], 0, 1⟩ := by
  constructor
  · exact (spec_C1 ⟨[], [((0 : ℤ), [((10 : ℚ), (20 : ℚ))])], 0, 0⟩
        ⟨"b.jpg", "images/b.jpg", 259200000⟩).2
      ((0 : ℤ), [((10 : ℚ), (20 : ℚ))]) (List.mem_singleton.2 rfl) (by decide)
  · exact (spec_C1 ⟨[], [((0 : ℤ), [((10 : ℚ), (20 : ℚ))])], 0, 0⟩
        ⟨"c.jpg", "images/c.jpg", 345600000⟩).1
      (Or.inr (by
        intro q hq
        rw [List.mem_singleton] at hq
        subst hq
        decide))

/-- C7: whenever inference succeeds, the coordinate it emits is the
arithmetic mean of the latitudes and of the longitudes of all coordinates
recorded for the selected nearest day, computed independently and each
rounded to 6 decimal places. -/
theorem spec_C7 (ts : ℤ) (idx : DayIndex) (c : Coord) (delta : ℤ)
    (h : infer_location ts idx = some (c, delta)) :
    ∃ d, bestDay (toDay ts) idx = some (d, delta) ∧
      c = dayAverage (lookupDay idx d) ∧
      c.1 = round6 (((lookupDay idx d).map Prod.fst).sum /
              ((lookupDay idx d).length : ℚ)) ∧
      c.2 = round6 (((lookupDay idx d).map Prod.snd).sum /
              ((lookupDay idx d).length : ℚ)) := by
  by_cases hemp : idx.isEmpty = true
  · rw [infer_location, if_pos hemp] at h
    exact absurd h (by simp)
  · rw [infer_location, if_neg hemp] at h
    simp only [] at h
    cases hbd : bestDay (toDay ts) idx with
    | none =>
        rw [hbd] at h
        simp only [] at h
        exact absurd h (by simp)
    | some bp =>
        obtain ⟨bd, bdelta⟩ := bp
        rw [hbd] at h
        simp only [] at h
        by_cases h3 : 3 < bdelta
        · rw [if_pos h3] at h
          exact absurd h (by simp)
        · rw [if_neg h3] at h
          have hin := Option.some.inj h
          have h1 : ((round6 (((lookupDay idx bd).map Prod.fst).sum /
              ((lookupDay idx bd).length : ℚ)),
              round6 (((lookupDay idx bd).map Prod.snd).sum /
              ((lookupDay idx bd).length : ℚ))) : Coord) = c :=
            congrArg Prod.fst hin
          have h2 : bdelta = delta := congrArg Prod.snd hin
          refine ⟨bd, by rw [h2], ?_, ?_, ?_⟩
          · rw [← h1]
            rfl
          · rw [← h1]
          · rw [← h1]

/-- Witness for C7: two coordinates (10, 20) and (12, 22) indexed on day 0
average to (11, 21) for a same-day inference. -/
theorem spec_C7_witness :
    infer_location 0 [((0 : ℤ), [((10 : ℚ), (20 : ℚ)), (12, 22)])] =
      some ((11, 21), 0) ∧
    (∃ d,
      bestDay (toDay 0) [((0 : ℤ), [((10 : ℚ), (20 : ℚ)), (12, 22)])] =
        some (d, 0) ∧
      (((11 : ℚ), (21 : ℚ)) : Coord) =
        dayAverage (lookupDay [((0 : ℤ), [((10 : ℚ), (20 : ℚ)), (12, 22)])] d) ∧
      (((11 : ℚ), (21 : ℚ)) : Coord).1 =
        round6 (((lookupDay [((0 : ℤ), [((10 : ℚ), (20 : ℚ)), (12, 22)])] d).map
            Prod.fst).sum /
          ((lookupDay [((0 : ℤ), [((10 : ℚ), (20 : ℚ)), (12, 22)])] d).length : ℚ)) ∧
      (((11 : ℚ), (21 : ℚ)) : Coord).2 =
        round6 (((lookupDay [((0 : ℤ), [((10 : ℚ), (20 : ℚ)), (12, 22)])] d).map
            Prod.snd).sum /
          ((lookupDay [((0 : ℤ), [((10 : ℚ), (20 : ℚ)), (12, 22)])] d).length : ℚ))) := by
  have ht : toDay 0 = 0 := by decide
  have hb : bestDay 0 [((0 : ℤ), [((10 : ℚ), (20 : ℚ)), (12, 22)])] =
      some (0, 0) := by decide
  have h1 : infer_location 0 [((0 : ℤ), [((10 : ℚ), (20 : ℚ)), (12, 22)])] =
      some ((11, 21), 0) := by
    rw [infer_location]
    simp only [List.isEmpty_cons, ht, hb, if_false, Bool.false_eq_true]
    norm_num [lookupDay, round6, round_eq]
  exact ⟨h1, spec_C7 0 _ (11, 21) 0 h1⟩

/-- C4: the decimal coordinate built from a numeric DMS triple equals
degrees + minutes/60 + seconds/3600, negated exactly when the reference
is S or W, rounded to 6 decimal places; DMS (40, 26, 46) with N gives
40.446111 and (73, 59, 11) with W gives -73.986389. -/
theorem spec_C4 (d m s : ℚ) (ref : String) :
    dms_to_decimal [PyNum.num d, PyNum.num m, PyNum.num s] ref =
      Except.ok (round6 (if ref = "S" ∨ ref = "W" then -(d + m / 60 + s / 3600)
        else d + m / 60 + s / 3600)) ∧
    dms_to_decimal [PyNum.num 40, PyNum.num 26, PyNum.num 46] "N" =
      Except.ok (40446111 / 1000000) ∧
    dms_to_decimal [PyNum.num 73, PyNum.num 59, PyNum.num 11] "W" =
      Except.ok (-(73986389 / 1000000)) := by
  refine ⟨rfl, ?_, ?_⟩
  · have e : dms_to_decimal [PyNum.num 40, PyNum.num 26, PyNum.num 46] "N" =
        Except.ok (round6 ((40 : ℚ) + 26 / 60 + 46 / 3600)) := rfl
    rw [e]
    have hv : round6 ((40 : ℚ) + 26 / 60 + 46 / 3600) = 40446111 / 1000000 := by
      unfold round6
      rw [round_eq]
      norm_num
    rw [hv]
  · have e : dms_to_decimal [PyNum.num 73, PyNum.num 59, PyNum.num 11] "W" =
        Except.ok (round6 (-((73 : ℚ) + 59 / 60 + 11 / 3600))) := rfl
    rw [e]
    have hv : round6 (-((73 : ℚ) + 59 / 60 + 11 / 3600)) =
        -(73986389 / 1000000) := by
      unfold round6
      rw [round_eq]
      norm_num
    rw [hv]

/-! ## GPS parsing: C3 -/

theorem dms_to_decimal_total (dms : List PyNum) (ref : String)
    (h : 3 ≤ dms.length)
    (hns : ∀ i, i < 3 → dms[i]? ≠ some PyNum.nonNumericStr) :
    (∃ q, dms_to_decimal dms ref = Except.ok q) ∨
      dms_to_decimal dms ref = Except.error PyErr.typeError ∨
      dms_to_decimal dms ref = Except.error PyErr.zeroDivisionError := by
  cases dms with
  | nil => simp at h
  | cons a t1 =>
    cases t1 with
    | nil => simp at h
    | cons b t2 =>
      cases t2 with
      | nil => simp at h
      | cons c t3 =>
          have ha : a ≠ PyNum.nonNumericStr := by simpa using hns 0 (by norm_num)
          have hb : b ≠ PyNum.nonNumericStr := by simpa using hns 1 (by norm_num)
          have hc : c ≠ PyNum.nonNumericStr := by simpa using hns 2 (by norm_num)
          rcases a with qa | _ | _ | _ <;> rcases b with qb | _ | _ | _ <;>
            rcases c with qc | _ | _ | _ <;>
            simp_all [dms_to_decimal, seqItem, pyFloat]

theorem dms_to_decimal_caught (dms : List PyNum) (ref : String)
    (h : 3 ≤ dms.length)
    (hns : ∀ i, i < 3 → dms[i]? ≠ some PyNum.nonNumericStr)
    (hbad : ∃ i, i < 3 ∧ (dms[i]? = some PyNum.nonNumeric ∨
      dms[i]? = some PyNum.zeroDen)) :
    dms_to_decimal dms ref = Except.error PyErr.typeError ∨
      dms_to_decimal dms ref = Except.error PyErr.zeroDivisionError := by
  rcases dms_to_decimal_total dms ref h hns with ⟨q, hq⟩ | hq | hq
  · exfalso
    cases dms with
    | nil => simp at h
    | cons a t1 =>
      cases t1 with
      | nil => simp at h
      | cons b t2 =>
        cases t2 with
        | nil => simp at h
        | cons c t3 =>
            obtain ⟨i, hi3, hibad⟩ := hbad
            interval_cases i <;>
              simp only [List.getElem?_cons_zero, List.getElem?_cons_succ,
                Option.some.injEq] at hibad <;>
              rcases a with qa | _ | _ | _ <;>
              rcases b with qb | _ | _ | _ <;>
              rcases c with qc | _ | _ | _ <;>
              simp_all [dms_to_decimal, seqItem, pyFloat]
  · exact Or.inl hq
  · exact Or.inr hq

theorem gpsBody_cases (g : GpsRaw)
    (hlat : ∀ l, g.latitude = some l → 3 ≤ l.length ∧
      ∀ i, i < 3 → l[i]? ≠ some PyNum.nonNumericStr)
    (hlng : ∀ l, g.longitude = some l → 3 ≤ l.length ∧
      ∀ i, i < 3 → l[i]? ≠ some PyNum.nonNumericStr) :
    (∃ p, gpsBody g = Except.ok p) ∨
      gpsBody g = Except.error PyErr.keyError ∨
      gpsBody g = Except.error PyErr.typeError ∨
      gpsBody g = Except.error PyErr.zeroDivisionError := by
  obtain ⟨glat, glatref, glng, glngref⟩ := g
  cases glat with
  | none => exact Or.inr (Or.inl rfl)
  | some llat =>
    cases glatref with
    | none => exact Or.inr (Or.inl rfl)
    | some rlat =>
      rcases dms_to_decimal_total llat rlat (hlat llat rfl).1 (hlat llat rfl).2 with
        ⟨lat, hq⟩ | hq | hq
      · cases glng with
        | none => exact Or.inr (Or.inl (by simp [gpsBody, dictEntry, hq]))
        | some llng =>
          cases glngref with
          | none => exact Or.inr (Or.inl (by simp [gpsBody, dictEntry, hq]))
          | some rlng =>
            rcases dms_to_decimal_total llng rlng (hlng llng rfl).1
              (hlng llng rfl).2 with ⟨lng, hq2⟩ | hq2 | hq2
            · exact Or.inl ⟨(lat, lng), by simp [gpsBody, dictEntry, hq, hq2]⟩
            · exact Or.inr (Or.inr (Or.inl (by simp [gpsBody, dictEntry, hq, hq2])))
            · exact Or.inr (Or.inr (Or.inr (by simp [gpsBody, dictEntry, hq, hq2])))
      · exact Or.inr (Or.inr (Or.inl (by simp [gpsBody, dictEntry, hq])))
      · exact Or.inr (Or.inr (Or.inr (by simp [gpsBody, dictEntry, hq])))

/-- Counterexample refuting C3 on the code, in three parts: (1) with a
full numeric DMS triple and the unrecognized hemisphere reference "X",
`get_gps_info` produces a coordinate (40.446111, treated like N/E)
instead of absent; (2) with a DMS sequence holding only two components,
the `IndexError` raised by `dms[2]` is not in the caught exception tuple
and propagates to the caller instead of yielding absent; (3) with a
non-numeric string as a DMS component, the `ValueError` raised by
`float()` is likewise uncaught and propagates. -/
theorem spec_C3_counterexample :
    get_gps_info (some ⟨some [PyNum.num 40, PyNum.num 26, PyNum.num 46], some "X",
        some [PyNum.num 40, PyNum.num 26, PyNum.num 46], some "X"⟩) =
      Except.ok (some (40446111 / 1000000, 40446111 / 1000000)) ∧
    get_gps_info (some ⟨some [PyNum.num 40, PyNum.num 26], some "N",
        some [PyNum.num 40, PyNum.num 26, PyNum.num 46], some "N"⟩) =
      Except.error PyErr.indexError ∧
    get_gps_info (some ⟨some [PyNum.nonNumericStr, PyNum.num 26, PyNum.num 46],
        some "N", some [PyNum.num 40, PyNum.num 26, PyNum.num 46], some "N"⟩) =
      Except.error PyErr.valueError := by
  refine ⟨?_, rfl, rfl⟩
  have e : get_gps_info (some ⟨some [PyNum.num 40, PyNum.num 26, PyNum.num 46],
      some "X", some [PyNum.num 40, PyNum.num 26, PyNum.num 46], some "X"⟩) =
      Except.ok (some (round6 ((40 : ℚ) + 26 / 60 + 46 / 3600),
        round6 ((40 : ℚ) + 26 / 60 + 46 / 3600))) := rfl
  rw [e]
  have hv : round6 ((40 : ℚ) + 26 / 60 + 46 / 3600) = 40446111 / 1000000 := by
    unfold round6
    rw [round_eq]
    norm_num
  rw [hv]

/-- C3 as amended: `get_gps_info` returns absent (`ok none`, never
raising) when the GPSInfo block is missing, when any of its four entries
is missing, or when a non-numeric non-string component (`TypeError`) or a
zero-denominator rational (`ZeroDivisionError`) sits among the first
three components of a DMS sequence — stated under the side condition that
each present DMS sequence has at least three components with no
non-numeric string among them, which excludes the uncaught exceptions.
(As the counterexample shows, the original claim's remaining cases fail:
an unrecognized hemisphere reference still produces a coordinate, a short
DMS sequence raises `IndexError`, and a non-numeric string component
raises `ValueError`; the last two propagate to the caller.) -/
theorem spec_C3_amended (g : GpsRaw)
    (hlat : ∀ l, g.latitude = some l → 3 ≤ l.length ∧
      ∀ i, i < 3 → l[i]? ≠ some PyNum.nonNumericStr)
    (hlng : ∀ l, g.longitude = some l → 3 ≤ l.length ∧
      ∀ i, i < 3 → l[i]? ≠ some PyNum.nonNumericStr) :
    get_gps_info none = Except.ok none ∧
    (∃ r, get_gps_info (some g) = Except.ok r) ∧
    ((g.latitude = none ∨ g.latitudeRef = none ∨ g.longitude = none ∨
        g.longitudeRef = none) →
      get_gps_info (some g) = Except.ok none) ∧
    (((∃ l, g.latitude = some l ∧ ∃ i, i < 3 ∧
        (l[i]? = some PyNum.nonNumeric ∨ l[i]? = some PyNum.zeroDen)) ∨
      (∃ l, g.longitude = some l ∧ ∃ i, i < 3 ∧
        (l[i]? = some PyNum.nonNumeric ∨ l[i]? = some PyNum.zeroDen))) →
      get_gps_info (some g) = Except.ok none) := by
  refine ⟨rfl, ?_, ?_, ?_⟩
  · rcases gpsBody_cases g hlat hlng with ⟨p, hp⟩ | hp | hp | hp
    · exact ⟨some p, by simp [get_gps_info, hp]⟩
    · exact ⟨none, by simp [get_gps_info, hp]⟩
    · exact ⟨none, by simp [get_gps_info, hp]⟩
    · exact ⟨none, by simp [get_gps_info, hp]⟩
  · intro hmiss
    obtain ⟨glat, glatref, glng, glngref⟩ := g
    rcases hmiss with h | h | h | h
    · cases h
      rfl
    · cases h
      cases glat with
      | none => rfl
      | some llat => rfl
    · cases h
      cases glat with
      | none => rfl
      | some llat =>
        cases glatref with
        | none => rfl
        | some rlat =>
          rcases dms_to_decimal_total llat rlat (hlat llat rfl).1
            (hlat llat rfl).2 with ⟨lat, hq⟩ | hq | hq <;>
            simp [get_gps_info, gpsBody, dictEntry, hq]
    · cases h
      cases glat with
      | none => rfl
      | some llat =>
        cases glatref with
        | none => rfl
        | some rlat =>
          rcases dms_to_decimal_total llat rlat (hlat llat rfl).1
            (hlat llat rfl).2 with ⟨lat, hq⟩ | hq | hq <;>
            cases glng <;>
            simp [get_gps_info, gpsBody, dictEntry, hq]
  · intro hbad
    obtain ⟨glat, glatref, glng, glngref⟩ := g
    rcases hbad with ⟨l, hl, hbadi⟩ | ⟨l, hl, hbadi⟩
    · have hglat : glat = some l := hl
      subst hglat
      cases glatref with
      | none => rfl
      | some rlat =>
        rcases dms_to_decimal_caught l rlat (hlat l rfl).1 (hlat l rfl).2
          ⟨hbadi.choose, hbadi.choose_spec.1, hbadi.choose_spec.2⟩ with hq | hq <;>
          simp [get_gps_info, gpsBody, dictEntry, hq]
    · have hglng : glng = some l := hl
      subst hglng
      cases glat with
      | none => rfl
      | some llat =>
        cases glatref with
        | none => rfl
        | some rlat =>
          rcases dms_to_decimal_total llat rlat (hlat llat rfl).1
            (hlat llat rfl).2 with ⟨lat, hq⟩ | hq | hq
          · cases glngref with
            | none => simp [get_gps_info, gpsBody, dictEntry, hq]
            | some rlng =>
              rcases dms_to_decimal_caught l rlng (hlng l rfl).1 (hlng l rfl).2
                ⟨hbadi.choose, hbadi.choose_spec.1, hbadi.choose_spec.2⟩ with
                hq2 | hq2 <;>
                simp [get_gps_info, gpsBody, dictEntry, hq, hq2]
          · simp [get_gps_info, gpsBody, dictEntry, hq]
          · simp [get_gps_info, gpsBody, dictEntry, hq]

/-- Witness for the amended C3: applying it once to a GPS block whose
latitude reference key is missing (absent, no exception) and once to a
block whose latitude DMS holds a non-numeric non-string component
(TypeError caught, absent). -/
theorem spec_C3_amended_witness :
    (∀ l, (some [PyNum.num 1, PyNum.num 2, PyNum.num 3] : Option (List PyNum)) =
        some l → 3 ≤ l.length ∧
          ∀ i, i < 3 → l[i]? ≠ some PyNum.nonNumericStr) ∧
    (∀ l, (some [PyNum.nonNumeric, PyNum.num 2, PyNum.num 3] :
        Option (List PyNum)) = some l → 3 ≤ l.length ∧
          ∀ i, i < 3 → l[i]? ≠ some PyNum.nonNumericStr) ∧
    get_gps_info (some ⟨some [PyNum.num 1, PyNum.num 2, PyNum.num 3], none,
        some [PyNum.num 1, PyNum.num 2, PyNum.num 3], some "E"⟩) =
      Except.ok none ∧
    get_gps_info (some ⟨some [PyNum.nonNumeric, PyNum.num 2, PyNum.num 3],
        some "N", some [PyNum.num 1, PyNum.num 2, PyNum.num 3], some "E"⟩) =
      Except.ok none := by
  have hl1 : ∀ l, (some [PyNum.num 1, PyNum.num 2, PyNum.num 3] :
      Option (List PyNum)) = some l → 3 ≤ l.length ∧
        ∀ i, i < 3 → l[i]? ≠ some PyNum.nonNumericStr := by
    intro l hle
    cases Option.some.inj hle
    refine ⟨by simp, ?_⟩
    intro i hi
    interval_cases i <;> simp
  have hl2 : ∀ l, (some [PyNum.nonNumeric, PyNum.num 2, PyNum.num 3] :
      Option (List PyNum)) = some l → 3 ≤ l.length ∧
        ∀ i, i < 3 → l[i]? ≠ some PyNum.nonNumericStr := by
    intro l hle
    cases Option.some.inj hle
    refine ⟨by simp, ?_⟩
    intro i hi
    interval_cases i <;> simp
  have h1 := spec_C3_amended ⟨some [PyNum.num 1, PyNum.num 2, PyNum.num 3], none,
      some [PyNum.num 1, PyNum.num 2, PyNum.num 3], some "E"⟩ hl1 hl1
  have h2 := spec_C3_amended ⟨some [PyNum.nonNumeric, PyNum.num 2, PyNum.num 3],
      some "N", some [PyNum.num 1, PyNum.num 2, PyNum.num 3], some "E"⟩ hl2 hl1
  refine ⟨hl1, hl2, h1.2.2.1 (Or.inr (Or.inl rfl)), ?_⟩
  exact h2.2.2.2 (Or.inl ⟨[PyNum.nonNumeric, PyNum.num 2, PyNum.num 3], rfl,
    0, by norm_num, Or.inl rfl⟩)

/-! ## Pass 1 and pass 2: fold characterizations -/

theorem pass1Step_geotagged (st : Pass1State) (r : MetaRecord) :
    (pass1Step st r).geotagged = st.geotagged ++ (exactRecord r).toList := by
  obtain ⟨fn, pa, heic, conv, gps, ts⟩ := r
  cases ts <;> cases gps <;> cases heic <;> cases conv <;>
    simp [pass1Step, exactRecord, HEIC_SUPPORT]

theorem pass1Step_no_gps (st : Pass1State) (r : MetaRecord) :
    (pass1Step st r).no_gps = st.no_gps ++ (pendRecord r).toList := by
  obtain ⟨fn, pa, heic, conv, gps, ts⟩ := r
  cases ts <;> cases gps <;> cases heic <;> cases conv <;>
    simp [pass1Step, pendRecord, HEIC_SUPPORT]

theorem pass1Step_day (st : Pass1State) (r : MetaRecord) :
    (pass1Step st r).day_locations = buildStep st.day_locations r := by
  obtain ⟨fn, pa, heic, conv, gps, ts⟩ := r
  cases ts <;> cases gps <;> cases heic <;> cases conv <;>
    simp [pass1Step, buildStep, exactIns, HEIC_SUPPORT]

theorem pass1_foldl_geotagged (input : List MetaRecord) :
    ∀ st : Pass1State, (input.foldl pass1Step st).geotagged =
      st.geotagged ++ input.filterMap exactRecord := by
  induction input with
  | nil => intro st; simp
  | cons r t ih =>
      intro st
      rw [List.foldl_cons, ih, pass1Step_geotagged]
      cases he : exactRecord r <;> simp [List.filterMap_cons, he]

theorem pass1_foldl_no_gps (input : List MetaRecord) :
    ∀ st : Pass1State, (input.foldl pass1Step st).no_gps =
      st.no_gps ++ input.filterMap pendRecord := by
  induction input with
  | nil => intro st; simp
  | cons r t ih =>
      intro st
      rw [List.foldl_cons, ih, pass1Step_no_gps]
      cases he : pendRecord r <;> simp [List.filterMap_cons, he]

theorem pass1_foldl_day (input : List MetaRecord) :
    ∀ st : Pass1State, (input.foldl pass1Step st).day_locations =
      input.foldl buildStep st.day_locations := by
  induction input with
  | nil => intro st; rfl
  | cons r t ih =>
      intro st
      rw [List.foldl_cons, ih, pass1Step_day, List.foldl_cons]

theorem pass2Step_day (st : Pass2State) (p : PendingRec) :
    (pass2Step st p).day_locations = st.day_locations := by
  cases h : infer_location p.timestamp st.day_locations with
  | none => simp [pass2Step, h]
  | some cp =>
      obtain ⟨c, dl⟩ := cp
      simp [pass2Step, h]

theorem pass2Step_geotagged (st : Pass2State) (p : PendingRec) :
    (pass2Step st p).geotagged =
      st.geotagged ++ (inferRec st.day_locations p).toList := by
  cases h : infer_location p.timestamp st.day_locations with
  | none => simp [pass2Step, inferRec, h]
  | some cp =>
      obtain ⟨c, dl⟩ := cp
      simp [pass2Step, inferRec, h]

theorem pass2Step_inferred (st : Pass2State) (p : PendingRec) :
    (pass2Step st p).inferred_count = st.inferred_count +
      (if (infer_location p.timestamp st.day_locations).isSome then 1 else 0) := by
  cases h : infer_location p.timestamp st.day_locations with
  | none => simp [pass2Step, h]
  | some cp =>
      obtain ⟨c, dl⟩ := cp
      simp [pass2Step, h]

theorem pass2Step_missing (st : Pass2State) (p : PendingRec) :
    (pass2Step st p).still_missing = st.still_missing +
      (if (infer_location p.timestamp st.day_locations).isNone then 1 else 0) := by
  cases h : infer_location p.timestamp st.day_locations with
  | none => simp [pass2Step, h]
  | some cp =>
      obtain ⟨c, dl⟩ := cp
      simp [pass2Step, h]

theorem pass2_foldl_day (pend : List PendingRec) :
    ∀ st : Pass2State, (pend.foldl pass2Step st).day_locations =
      st.day_locations := by
  induction pend with
  | nil => intro st; rfl
  | cons p t ih =>
      intro st
      rw [List.foldl_cons, ih, pass2Step_day]

theorem pass2_foldl_geotagged (pend : List PendingRec) :
    ∀ st : Pass2State, (pend.foldl pass2Step st).geotagged =
      st.geotagged ++ pend.filterMap (inferRec st.day_locations) := by
  induction pend with
  | nil => intro st; simp
  | cons p t ih =>
      intro st
      rw [List.foldl_cons, ih, pass2Step_geotagged, pass2Step_day]
      cases he : inferRec st.day_locations p <;> simp [List.filterMap_cons, he]

theorem pass2_foldl_inferred (pend : List PendingRec) :
    ∀ st : Pass2State, (pend.foldl pass2Step st).inferred_count =
      st.inferred_count +
        pend.countP (fun p => (infer_location p.timestamp st.day_locations).isSome) := by
  induction pend with
  | nil => intro st; simp
  | cons p t ih =>
      intro st
      rw [List.foldl_cons, ih, pass2Step_day, pass2Step_inferred, List.countP_cons]
      cases h : (infer_location p.timestamp st.day_locations).isSome <;>
        simp [h] <;> omega

theorem pass2_foldl_missing (pend : List PendingRec) :
    ∀ st : Pass2State, (pend.foldl pass2Step st).still_missing =
      st.still_missing +
        pend.countP (fun p => (infer_location p.timestamp st.day_locations).isNone) := by
  induction pend with
  | nil => intro st; simp
  | cons p t ih =>
      intro st
      rw [List.foldl_cons, ih, pass2Step_day, pass2Step_missing, List.countP_cons]
      cases h : (infer_location p.timestamp st.day_locations).isNone <;>
        simp [h] <;> omega

theorem length_filterMap_eq_countP {α β : Type} (f : α → Option β) (l : List α) :
    (l.filterMap f).length = l.countP (fun a => (f a).isSome) := by
  induction l with
  | nil => rfl
  | cons a t ih =>
      cases h : f a <;>
        simp [List.filterMap_cons, h, List.countP_cons, ih]

/-! ## Index provenance -/

theorem mem_lookupDay_insertDay (idx : DayIndex) (d : ℤ) (c : Coord) (e : ℤ)
    (x : Coord) (h : x ∈ lookupDay (insertDay idx d c) e) :
    (e = d ∧ x = c) ∨ x ∈ lookupDay idx e := by
  induction idx with
  | nil =>
      simp only [insertDay, lookupDay] at h
      by_cases hde : d = e
      · rw [if_pos hde] at h
        exact Or.inl ⟨hde.symm, List.mem_singleton.1 h⟩
      · rw [if_neg hde] at h
        exact absurd h (List.not_mem_nil x)
  | cons hd tl ih =>
      obtain ⟨d0, cs⟩ := hd
      simp only [insertDay] at h
      by_cases h0 : d0 = d
      · rw [if_pos h0] at h
        simp only [lookupDay] at h ⊢
        by_cases h1 : d0 = e
        · rw [if_pos h1] at h ⊢
          rcases List.mem_append.1 h with h2 | h2
          · exact Or.inr h2
          · exact Or.inl ⟨h1.symm.trans h0, List.mem_singleton.1 h2⟩
        · rw [if_neg h1] at h ⊢
          exact Or.inr h
      · rw [if_neg h0] at h
        simp only [lookupDay] at h ⊢
        by_cases h1 : d0 = e
        · rw [if_pos h1] at h ⊢
          exact Or.inr h
        · rw [if_neg h1] at h ⊢
          exact ih h

theorem mem_lookupDay_buildFold (input : List MetaRecord) :
    ∀ (idx0 : DayIndex) (d : ℤ) (c : Coord),
      c ∈ lookupDay (input.foldl buildStep idx0) d →
      c ∈ lookupDay idx0 d ∨ ∃ r ∈ input, exactIns r = some (d, c) := by
  induction input with
  | nil => intro idx0 d c h; exact Or.inl h
  | cons r t ih =>
      intro idx0 d c h
      rw [List.foldl_cons] at h
      rcases ih (buildStep idx0 r) d c h with h1 | h1
      · cases he : exactIns r with
        | none =>
            have hb : buildStep idx0 r = idx0 := by rw [buildStep, he]
            rw [hb] at h1
            exact Or.inl h1
        | some dc =>
            obtain ⟨d1, c1⟩ := dc
            have hb : buildStep idx0 r = insertDay idx0 d1 c1 := by
              rw [buildStep, he]
            rw [hb] at h1
            rcases mem_lookupDay_insertDay idx0 d1 c1 d c h1 with ⟨rfl, rfl⟩ | h2
            · exact Or.inr ⟨r, List.mem_cons_self r t, he⟩
            · exact Or.inl h2
      · obtain ⟨r2, hr2, he2⟩ := h1
        exact Or.inr ⟨r2, List.mem_cons_of_mem r hr2, he2⟩

theorem exactIns_fields (r : MetaRecord) (d : ℤ) (c : Coord)
    (h : exactIns r = some (d, c)) :
    r.gps = some c ∧
    (∃ ts, r.timestamp = some ts ∧ toDay ts = d) ∧
    ∃ pr, exactRecord r = some pr ∧ pr.approximate = false ∧
      pr.lat = c.1 ∧ pr.lng = c.2 := by
  obtain ⟨fn, pa, heic, conv, gps, ts⟩ := r
  cases ts <;> cases gps <;> cases heic <;> cases conv <;>
    simp_all [exactIns, exactRecord, HEIC_SUPPORT]

/-- C5: the DayIndex is frozen after pass 1 — the index in the final
result equals the pass-1 index (pass 2 never mutates it, so no inferred
coordinate is ever inserted), and every coordinate it holds under some
day entry comes from an input record that carried that exact coordinate,
whose timestamp falls on that day, and that was emitted in pass 1 as a
PhotoRecord with approximate = false. -/
theorem spec_C5 (input : List MetaRecord) :
    (scan_images input).day_locations = (pass1 input).day_locations ∧
    ∀ d c, c ∈ lookupDay ((scan_images input).day_locations) d →
      ∃ r ∈ input, r.gps = some c ∧
        (∃ ts, r.timestamp = some ts ∧ toDay ts = d) ∧
        ∃ pr, exactRecord r = some pr ∧ pr.approximate = false ∧
          pr.lat = c.1 ∧ pr.lng = c.2 := by
  have hfrozen : (scan_images input).day_locations = (pass1 input).day_locations :=
    pass2_foldl_day (pass1 input).no_gps
      ⟨(pass1 input).geotagged, (pass1 input).day_locations, 0, 0⟩
  refine ⟨hfrozen, ?_⟩
  intro d c hc
  rw [hfrozen] at hc
  have hday : (pass1 input).day_locations = input.foldl buildStep [] :=
    pass1_foldl_day input ⟨[], [], []⟩
  rw [hday] at hc
  rcases mem_lookupDay_buildFold input [] d c hc with h1 | h1
  · exact absurd h1 (List.not_mem_nil c)
  · obtain ⟨r, hr, he⟩ := h1
    obtain ⟨hgps, hts, hpr⟩ := exactIns_fields r d c he
    exact ⟨r, hr, hgps, hts, hpr⟩

theorem exactRecord_approx (r : MetaRecord) (pr : PhotoRecord)
    (h : exactRecord r = some pr) : pr.approximate = false := by
  obtain ⟨fn, pa, heic, conv, gps, ts⟩ := r
  cases ts <;> cases gps <;> cases heic <;> cases conv <;>
    simp_all [exactRecord, HEIC_SUPPORT] <;> exact h ▸ rfl

theorem inferRec_approx (idx : DayIndex) (p : PendingRec) (pr : PhotoRecord)
    (h : inferRec idx p = some pr) : pr.approximate = true := by
  cases hi : infer_location p.timestamp idx with
  | none => rw [inferRec, hi] at h; exact absurd h (by simp)
  | some cp =>
      obtain ⟨c, dl⟩ := cp
      rw [inferRec, hi] at h
      cases Option.some.inj h
      rfl

theorem scan_images_photos (input : List MetaRecord) :
    (scan_images input).photos =
      input.filterMap exactRecord ++
        (pass1 input).no_gps.filterMap (inferRec (pass1 input).day_locations) := by
  have h := pass2_foldl_geotagged (pass1 input).no_gps
    ⟨(pass1 input).geotagged, (pass1 input).day_locations, 0, 0⟩
  have hgeo : (pass1 input).geotagged = input.filterMap exactRecord :=
    pass1_foldl_geotagged input ⟨[], [], []⟩
  calc (scan_images input).photos
      = (pass1 input).geotagged ++
          (pass1 input).no_gps.filterMap (inferRec (pass1 input).day_locations) := h
    _ = input.filterMap exactRecord ++
          (pass1 input).no_gps.filterMap (inferRec (pass1 input).day_locations) := by
          rw [hgeo]

/-- C6: the output sequence is all exact-coordinate records first, in
input order, followed by the inferred records in the order their sources
were queued into the pending pool, which is itself input order among the
coordinate-less records; the first block is all approximate = false, the
second all approximate = true. -/
theorem spec_C6 (input : List MetaRecord) :
    (scan_images input).photos =
      input.filterMap exactRecord ++
        (pass1 input).no_gps.filterMap (inferRec (pass1 input).day_locations) ∧
    (pass1 input).no_gps = input.filterMap pendRecord ∧
    (∀ pr ∈ input.filterMap exactRecord, pr.approximate = false) ∧
    (∀ pr ∈ (pass1 input).no_gps.filterMap
        (inferRec (pass1 input).day_locations), pr.approximate = true) := by
  refine ⟨scan_images_photos input, pass1_foldl_no_gps input ⟨[], [], []⟩, ?_, ?_⟩
  · intro pr hpr
    obtain ⟨r, _, he⟩ := List.mem_filterMap.1 hpr
    exact exactRecord_approx r pr he
  · intro pr hpr
    obtain ⟨p, _, he⟩ := List.mem_filterMap.1 hpr
    exact inferRec_approx (pass1 input).day_locations p pr he

/-! ## Skipped records: C8 and C10 -/

theorem pass1Step_skip_no_timestamp (st : Pass1State) (r : MetaRecord)
    (h : r.timestamp = none) : pass1Step st r = st := by
  obtain ⟨fn, pa, heic, conv, gps, ts⟩ := r
  cases h
  simp [pass1Step, HEIC_SUPPORT]

theorem foldl_eq_foldl_filter {α β : Type} (f : β → α → β) (p : α → Bool)
    (h : ∀ b a, p a = false → f b a = b) :
    ∀ (l : List α) (b : β), l.foldl f b = (l.filter p).foldl f b := by
  intro l
  induction l with
  | nil => intro b; rfl
  | cons a t ih =>
      intro b
      cases hp : p a with
      | false =>
          rw [List.foldl_cons, h b a hp, List.filter_cons, hp]
          simp only [Bool.false_eq_true, if_false]
          exact ih b
      | true =>
          rw [List.foldl_cons, List.filter_cons, hp]
          simp only [if_true]
          rw [List.foldl_cons]
          exact ih (f b a)

/-- C8: a record with an absent (or unparseable, hence absent in the
model) timestamp contributes nothing at all: the scan of any input equals
the scan of the input with all timestamp-less records removed — same
output sequence, same index, same exact/inferred/unresolved counts —
even when such a record carries an exact GPS coordinate. -/
theorem spec_C8 (input : List MetaRecord) :
    scan_images input = scan_images (input.filter (fun r => r.timestamp.isSome)) := by
  have hp1 : pass1 input = pass1 (input.filter (fun r => r.timestamp.isSome)) := by
    unfold pass1
    refine foldl_eq_foldl_filter pass1Step _ ?_ input ⟨[], [], []⟩
    intro b a ha
    refine pass1Step_skip_no_timestamp b a ?_
    cases hta : a.timestamp with
    | none => rfl
    | some t => rw [hta] at ha; exact absurd ha (by simp)
  unfold scan_images
  rw [hp1]

theorem pass1Step_skip_conv (st : Pass1State) (r : MetaRecord)
    (hheic : r.isHeic = true) (hconv : r.convertResult = none) :
    pass1Step st r = st := by
  obtain ⟨fn, pa, heic, conv, gps, ts⟩ := r
  cases hheic
  cases hconv
  cases ts <;> simp [pass1Step, HEIC_SUPPORT]

/-- C10: a HEIC record with a valid timestamp and an exact GPS coordinate
whose JPEG conversion fails is excluded entirely: the scan of any input
containing it equals the scan with it removed, so its coordinate is never
inserted into the DayIndex and the inference results of other photos are
exactly those of the input without it. -/
theorem spec_C10 (pre post : List MetaRecord) (r : MetaRecord) (ts : ℤ) (c : Coord)
    (hheic : r.isHeic = true) (hts : r.timestamp = some ts) (hgps : r.gps = some c)
    (hconv : r.convertResult = none) :
    scan_images (pre ++ r :: post) = scan_images (pre ++ post) := by
  have hstep : pass1Step (pre.foldl pass1Step ⟨[], [], []⟩) r =
      pre.foldl pass1Step ⟨[], [], []⟩ :=
    pass1Step_skip_conv _ r hheic hconv
  have hp1 : pass1 (pre ++ r :: post) = pass1 (pre ++ post) := by
    unfold pass1
    rw [List.foldl_append, List.foldl_append, List.foldl_cons, hstep]
  unfold scan_images
  rw [hp1]

/-- Witness for C10: a single HEIC record with timestamp 0 and exact
coordinate (1, 2) whose conversion failed scans identically to the empty
input. -/
theorem spec_C10_witness :
    ((⟨"a.heic", "images/a.heic", true, none, some ((1 : ℚ), (2 : ℚ)), some 0⟩ :
        MetaRecord).isHeic = true) ∧
    ((⟨"a.heic", "images/a.heic", true, none, some ((1 : ℚ), (2 : ℚ)), some 0⟩ :
        MetaRecord).timestamp = some 0) ∧
    ((⟨"a.heic", "images/a.heic", true, none, some ((1 : ℚ), (2 : ℚ)), some 0⟩ :
        MetaRecord).gps = some ((1 : ℚ), (2 : ℚ))) ∧
    ((⟨"a.heic", "images/a.heic", true, none, some ((1 : ℚ), (2 : ℚ)), some 0⟩ :
        MetaRecord).convertResult = none) ∧
    scan_images [⟨"a.heic", "images/a.heic", true, none,
        some ((1 : ℚ), (2 : ℚ)), some 0⟩] =
      scan_images [] :=
  ⟨rfl, rfl, rfl, rfl,
    spec_C10 [] [] ⟨"a.heic", "images/a.heic", true, none,
      some ((1 : ℚ), (2 : ℚ)), some 0⟩ 0 ((1 : ℚ), (2 : ℚ)) rfl rfl rfl rfl⟩

/-! ## Summary counts: C9 -/

theorem inferRec_isSome (idx : DayIndex) (p : PendingRec) :
    (inferRec idx p).isSome = (infer_location p.timestamp idx).isSome := by
  cases h : infer_location p.timestamp idx with
  | none => simp [inferRec, h]
  | some cp =>
      obtain ⟨c, dl⟩ := cp
      simp [inferRec, h]

/-- C9: in the reported Summary, `exact` is the number of output records
with approximate = false, `inferred` the number with approximate = true,
`unresolved` the number of pending records for which inference produced
nothing; and exact + inferred is the length of the output sequence. -/
theorem spec_C9 (input : List MetaRecord) :
    (scan_images input).exactCount =
      (scan_images input).photos.countP (fun pr => !pr.approximate) ∧
    (scan_images input).inferredCount =
      (scan_images input).photos.countP (fun pr => pr.approximate) ∧
    (scan_images input).stillMissing =
      (pass1 input).no_gps.countP
        (fun p => (infer_location p.timestamp (pass1 input).day_locations).isNone) ∧
    (scan_images input).exactCount + (scan_images input).inferredCount =
      (scan_images input).photos.length := by
  have hphotos := scan_images_photos input
  have hAfalse : ∀ pr ∈ input.filterMap exactRecord, pr.approximate = false := by
    intro pr hpr
    obtain ⟨r, _, he⟩ := List.mem_filterMap.1 hpr
    exact exactRecord_approx r pr he
  have hBtrue : ∀ pr ∈ (pass1 input).no_gps.filterMap
      (inferRec (pass1 input).day_locations), pr.approximate = true := by
    intro pr hpr
    obtain ⟨p, _, he⟩ := List.mem_filterMap.1 hpr
    exact inferRec_approx (pass1 input).day_locations p pr he
  have hinfc : (scan_images input).inferredCount =
      (pass1 input).no_gps.countP
        (fun p => (infer_location p.timestamp (pass1 input).day_locations).isSome) := by
    have h := pass2_foldl_inferred (pass1 input).no_gps
      ⟨(pass1 input).geotagged, (pass1 input).day_locations, 0, 0⟩
    exact h.trans (Nat.zero_add _)
  have hmiss : (scan_images input).stillMissing =
      (pass1 input).no_gps.countP
        (fun p => (infer_location p.timestamp (pass1 input).day_locations).isNone) := by
    have h := pass2_foldl_missing (pass1 input).no_gps
      ⟨(pass1 input).geotagged, (pass1 input).day_locations, 0, 0⟩
    exact h.trans (Nat.zero_add _)
  have hBlen : ((pass1 input).no_gps.filterMap
      (inferRec (pass1 input).day_locations)).length =
      (pass1 input).no_gps.countP
        (fun p => (infer_location p.timestamp (pass1 input).day_locations).isSome) := by
    rw [length_filterMap_eq_countP]
    have hfun : (fun p => (inferRec (pass1 input).day_locations p).isSome) =
        (fun p : PendingRec =>
          (infer_location p.timestamp (pass1 input).day_locations).isSome) :=
      funext (fun p => inferRec_isSome (pass1 input).day_locations p)
    rw [hfun]
  have hinfB : (scan_images input).inferredCount =
      ((pass1 input).no_gps.filterMap
        (inferRec (pass1 input).day_locations)).length := by
    rw [hinfc, hBlen]
  have hlen : (scan_images input).photos.length =
      (input.filterMap exactRecord).length +
        ((pass1 input).no_gps.filterMap
          (inferRec (pass1 input).day_locations)).length := by
    rw [hphotos, List.length_append]
  have hdefExact : (scan_images input).exactCount =
      (scan_images input).photos.length - (scan_images input).inferredCount := rfl
  have hexact : (scan_images input).exactCount =
      (input.filterMap exactRecord).length := by
    rw [hdefExact, hlen, hinfB]
    omega
  have hcountA1 : (input.filterMap exactRecord).countP
      (fun pr => !pr.approximate) = (input.filterMap exactRecord).length := by
    rw [List.countP_eq_length]
    intro pr hpr
    rw [hAfalse pr hpr]
    rfl
  have hcountB1 : ((pass1 input).no_gps.filterMap
      (inferRec (pass1 input).day_locations)).countP
      (fun pr => !pr.approximate) = 0 := by
    rw [List.countP_eq_zero]
    intro pr hpr
    rw [hBtrue pr hpr]
    simp
  have hcountA2 : (input.filterMap exactRecord).countP
      (fun pr => pr.approximate) = 0 := by
    rw [List.countP_eq_zero]
    intro pr hpr
    rw [hAfalse pr hpr]
    simp
  have hcountB2 : ((pass1 input).no_gps.filterMap
      (inferRec (pass1 input).day_locations)).countP
      (fun pr => pr.approximate) = ((pass1 input).no_gps.filterMap
      (inferRec (pass1 input).day_locations)).length := by
    rw [List.countP_eq_length]
    intro pr hpr
    rw [hBtrue pr hpr]
  refine ⟨?_, ?_, hmiss, ?_⟩
  · rw [hexact, hphotos, List.countP_append, hcountA1, hcountB1]
    omega
  · rw [hinfB, hphotos, List.countP_append, hcountA2, hcountB2]
    omega
  · rw [hexact, hinfB, hlen]

/-- Witness for C5: a single exact record at timestamp 0 with coordinate
(10, 20); that coordinate sits in the final index under day 0, and the
provenance promised by C5 holds for it. -/
theorem spec_C5_witness :
    (((10 : ℚ), (20 : ℚ)) ∈ lookupDay
      ((scan_images [⟨"a.jpg", "images/a.jpg", false, none,
          some ((10 : ℚ), (20 : ℚ)), some 0⟩]).day_locations) 0) ∧
    (∃ r ∈ [(⟨"a.jpg", "images/a.jpg", false, none,
          some ((10 : ℚ), (20 : ℚ)), some 0⟩ : MetaRecord)],
      r.gps = some ((10 : ℚ), (20 : ℚ)) ∧
      (∃ ts, r.timestamp = some ts ∧ toDay ts = 0) ∧
      ∃ pr, exactRecord r = some pr ∧ pr.approximate = false ∧
        pr.lat = ((10 : ℚ), (20 : ℚ)).1 ∧ pr.lng = ((10 : ℚ), (20 : ℚ)).2) := by
  have hmem : ((10 : ℚ), (20 : ℚ)) ∈ lookupDay
      ((scan_images [⟨"a.jpg", "images/a.jpg", false, none,
          some ((10 : ℚ), (20 : ℚ)), some 0⟩]).day_locations) 0 :=
    List.Mem.head _
  exact ⟨hmem,
    (spec_C5 [⟨"a.jpg", "images/a.jpg", false, none,
        some ((10 : ℚ), (20 : ℚ)), some 0⟩]).2 0 ((10 : ℚ), (20 : ℚ)) hmem⟩

/-- Witness for C6: on a single exact record, the sole output record is
the exact one and it carries approximate = false. -/
theorem spec_C6_witness :
    ((⟨"a.jpg", "images/a.jpg", 0, 10, 20, false⟩ : PhotoRecord) ∈
      [(⟨"a.jpg", "images/a.jpg", false, none,
          some ((10 : ℚ), (20 : ℚ)), some 0⟩ : MetaRecord)].filterMap
        exactRecord) ∧
    (⟨"a.jpg", "images/a.jpg", 0, 10, 20, false⟩ : PhotoRecord).approximate =
      false := by
  have hmem : (⟨"a.jpg", "images/a.jpg", 0, 10, 20, false⟩ : PhotoRecord) ∈
      [(⟨"a.jpg", "images/a.jpg", false, none,
          some ((10 : ℚ), (20 : ℚ)), some 0⟩ : MetaRecord)].filterMap
        exactRecord :=
    List.Mem.head _
  exact ⟨hmem,
    (spec_C6 [⟨"a.jpg", "images/a.jpg", false, none,
        some ((10 : ℚ), (20 : ℚ)), some 0⟩]).2.2.1
      ⟨"a.jpg", "images/a.jpg", 0, 10, 20, false⟩ hmem⟩
